import Mathlib

/-!
Verification development for the musicNet query-builder core
(src/musicNet/__init__.py). The Python classes `Node`, `Relationship`,
`Property`, `Filter` and `Query` are shallowly embedded as Lean structures,
and the builder methods (`setStartNode`, `setStartRelationship`,
`addRelationship`, `addComparisonFilter`, `addCypherFilter`, `addReturns`,
`setOrder`, `setLimit`) and the assembler `_assemblePattern` as pure
functions on an explicit query state. Python machine behaviour is made
explicit: truthiness tests are spelled out, `sys.exit` / raised exceptions
become `Except`, the random-name generator takes its stream of draws as an
argument, and Python `float` values are modelled as exact decimal numbers
(an integer mantissa and a base-ten exponent), which is faithful on the
terminating decimals the code round-trips.
-/

namespace MusicNet

/-- Model of a Python float as an exact decimal: mantissa and base-ten
exponent, denoting `mantissa / 10 ^ exp`. `(35, 1)` denotes `3.5`. -/
structure PyFloat where
  mantissa : Int
  exp : Nat
  deriving DecidableEq, Repr

/-- Numeric value of a `PyFloat` as a rational. -/
def PyFloat.val (f : PyFloat) : ℚ := (f.mantissa : ℚ) / ((10 : ℚ) ^ f.exp)

/-- Python numeric equality (`==`) between two modelled floats:
`a / 10^e1 == b / 10^e2` cross-multiplied. -/
def PyFloat.pyEq (a b : PyFloat) : Bool :=
  a.mantissa * (10 : Int) ^ b.exp == b.mantissa * (10 : Int) ^ a.exp

/-- Python `str` of a nonnegative mantissa/exponent pair after stripping
trailing zeros, e.g. `(35, 1) ↦ "3.5"` and `(3, 0) ↦ "3.0"`. -/
def stripZeros : Nat → Nat → Nat × Nat
  | m, 0 => (m, 0)
  | m, e + 1 => if m % 10 == 0 then stripZeros (m / 10) e else (m, e + 1)

/-- Left-pad a decimal rendering with zeros to a given width, the model of
the `%0Nd` format. -/
def padZeros (width : Nat) (s : String) : String :=
  (String.mk (List.replicate (width - s.length) '0')) ++ s

/-- Python `str()` of a modelled float: strip trailing zeros of the
fractional part, then print `intPart.fracPart` (Python always prints a
fractional part, so `3.0` renders as `"3.0"`). -/
def PyFloat.str (f : PyFloat) : String :=
  let sign := if f.mantissa < 0 then "-" else ""
  let (m, e) := stripZeros f.mantissa.natAbs f.exp
  let ip := m / 10 ^ e
  let fp := m % 10 ^ e
  if e == 0 then sign ++ toString m ++ ".0"
  else sign ++ toString ip ++ "." ++ padZeros e (toString fp)

/-- Embedding of the Python `Node` entity (src line 1658): attribute dict
`{name, query, _type, nodeType, id}`. The owning `query` reference is the
same object for all entities of one Query and `_type` always equals
`nodeType`, so both are omitted. `nodeType` is `"*"` when no type was
given. -/
structure NodeE where
  name : String
  nodeType : String
  id : Option Int
  deriving DecidableEq, Repr

/-- Embedding of the Python `Relationship` entity (src line 1701):
attribute dict `{name, query, _type, relationType, start, end, optional}`;
`optional` is the string `""` or `"?"` exactly as stored by the
constructor. -/
structure RelE where
  name : String
  relationType : String
  start : NodeE
  «end» : NodeE
  optional : String
  deriving DecidableEq, Repr

/-- The parent of a `Property` is either a Node or a Relationship. -/
inductive Parent where
  | node (n : NodeE)
  | rel (r : RelE)
  deriving DecidableEq, Repr

/-- Name of a parent entity, used by `Property.__repr__`. -/
def Parent.name : Parent → String
  | .node n => n.name
  | .rel r => r.name

/-- Embedding of the Python `Property` entity (src line 1725): attribute
dict `{name, query, parent}`. -/
structure PropertyE where
  parent : Parent
  name : String
  deriving DecidableEq, Repr

/-- A filter operand: a `Property` token or a literal, as accepted by
`Query.addComparisonFilter`. -/
inductive Operand where
  | prop (p : PropertyE)
  | str (s : String)
  | int (n : Int)
  | float (f : PyFloat)
  | bool (b : Bool)
  deriving DecidableEq, Repr

/-- Embedding of the Python `Filter` entity (src line 1754): attribute
dict `{name, query, pre, operator, post}`. `Filter.__init__` never calls
`_addName`, so `name` is always `None` and is omitted here. -/
structure FilterE where
  pre : Operand
  operator : String
  post : Operand
  deriving DecidableEq, Repr

/-- Python `str()` of a bool, as produced by the `'"%s"' % operand`
format. -/
def pyStrBool (b : Bool) : String := if b then "True" else "False"

/-- Python `==` between operand values. Literals compare with Python's
numeric coercion (`True == 1`, `7 == 7.0`); a `Property` entity compares
structurally via `Entity.__eq__` and is never equal to a literal. -/
def Operand.pyEq : Operand → Operand → Bool
  | .prop a, .prop b => a == b
  | .str a, .str b => a == b
  | .int a, .int b => a == b
  | .bool a, .bool b => a == b
  | .int a, .bool b => a == (if b then 1 else 0)
  | .bool a, .int b => (if a then (1 : Int) else 0) == b
  | .float a, .float b => a.pyEq b
  | .int a, .float b => a * (10 : Int) ^ b.exp == b.mantissa
  | .float a, .int b => a.mantissa == b * (10 : Int) ^ a.exp
  | .bool a, .float b => (if a then (1 : Int) else 0) * (10 : Int) ^ b.exp == b.mantissa
  | .float a, .bool b => a.mantissa == (if b then (1 : Int) else 0) * (10 : Int) ^ a.exp
  | _, _ => false

/-- Python `==` of two Filters, i.e. `Entity.__eq__` (src line 1606):
same class and equal `__dict__` (`pre`, `operator`, `post`; `name` is
`None` on both sides and `query` is the shared owner). -/
def FilterE.pyEq (a b : FilterE) : Bool :=
  a.pre.pyEq b.pre && a.operator == b.operator && a.post.pyEq b.post

/-- Rendering of one filter operand, from `Filter.__repr__`
(src lines 1760-1768): `str` and `bool` instances are quoted in double
quotes by the `'"%s"' % operand` format, everything else renders via
`str()`. -/
def Operand.render : Operand → String
  | .str s => "\"" ++ s ++ "\""
  | .bool b => "\"" ++ pyStrBool b ++ "\""
  | .int n => toString n
  | .float f => f.str
  | .prop p => p.parent.name ++ "." ++ p.name

/-- `Filter.__repr__` (src line 1768): `'%s %s %s' % (pre, operator,
post)` over the rendered operands. -/
def FilterE.render (f : FilterE) : String :=
  f.pre.render ++ " " ++ f.operator ++ " " ++ f.post.render

/-- `Property.__repr__` (src line 1731): `'%s.%s' % (parent.name, name)`. -/
def PropertyE.render (p : PropertyE) : String :=
  p.parent.name ++ "." ++ p.name

/-- `Relationship.__repr__` (src line 1714):
`'(%s)-[%s%s:%s]->(%s)'` over start name, own name, optional marker,
type, end name. -/
def RelE.render (r : RelE) : String :=
  "(" ++ r.start.name ++ ")-[" ++ r.name ++ r.optional ++ ":" ++
    r.relationType ++ "]->(" ++ r.«end».name ++ ")"

/-- An element of `Query.where`: a structured `Filter` appended by
`addComparisonFilter`, or raw Cypher text appended by `addCypherFilter`. -/
inductive WhereItem where
  | filt (f : FilterE)
  | raw (s : String)
  deriving DecidableEq, Repr

/-- Python `==` on where-list elements: a `Filter` never equals a raw
string (the `isinstance` check in `Entity.__eq__` fails both ways). -/
def WhereItem.pyEq : WhereItem → WhereItem → Bool
  | .filt a, .filt b => a.pyEq b
  | .raw a, .raw b => a == b
  | _, _ => false

/-- Rendering of one where-list element by `str(x)` in
`_assemblePattern`. -/
def WhereItem.render : WhereItem → String
  | .filt f => f.render
  | .raw s => s

/-- Embedding of the mutable state of a Python `Query` object
(`Query.__init__`, src lines 926-939). `start` holds the literal start
clause string or `None`; `limit` is `''` (modelled `none`) until
`setLimit` stores an integer; `nodes` is the Python set of referenced
nodes, modelled as an insertion-ordered duplicate-free list (CPython set
iteration order is unspecified but fixed for an unchanged set within one
process, which is all the code relies on). -/
structure QueryE where
  start : Option String
  «match» : List RelE
  «where» : List WhereItem
  returns : List PropertyE
  orders : List PropertyE
  limit : Option Int
  nodes : List NodeE
  deriving DecidableEq, Repr

/-- A freshly constructed `Query` (src lines 926-939). -/
def emptyQuery : QueryE :=
  { start := none, «match» := [], «where» := [], returns := [], orders := [],
    limit := none, nodes := [] }

/-- Python truthiness of the `node.id` attribute (`if node.id:`):
false for `None` and for `0`. -/
def pyTruthyId : Option Int → Bool
  | none => false
  | some i => i != 0

/-- `Query.setStartNode` (src lines 967-973) for an explicit `Node`
argument: store the rendered start clause, targeting the node id when it
is truthy and the type auto-index otherwise. -/
def setStartNode (q : QueryE) (node : NodeE) : QueryE :=
  if pyTruthyId node.id then
    { q with start := some ("start " ++ node.name ++ "=node(" ++
        toString (node.id.getD 0) ++ ")\n") }
  else
    { q with start := some ("start " ++ node.name ++
        "=node:node_auto_index(\"type:" ++ node.nodeType ++ "\")\n") }

/-- Python set insertion `self.nodes.add(node)`: append unless an equal
element is present. -/
def setAdd (l : List NodeE) (n : NodeE) : List NodeE :=
  if n ∈ l then l else l ++ [n]

/-- One iteration of the endpoint loop of `Query.addRelationship`
(src lines 1136-1138): `if node.nodeType == '*': continue;
self.nodes.add(node)`. -/
def addNodeStep (acc : List NodeE) (n : NodeE) : List NodeE :=
  if n.nodeType == "*" then acc else setAdd acc n

/-- `Query.addRelationship` (src lines 1133-1139) for an explicit
`Relationship` argument: append to the match list unconditionally, then
run the endpoint loop over `(relation.start, relation.end)`, adding each
endpoint whose type is not the wildcard `'*'` to the node set. -/
def addRelationship (q : QueryE) (r : RelE) : QueryE :=
  { q with «match» := q.«match» ++ [r],
           nodes := addNodeStep (addNodeStep q.nodes r.start) r.«end» }

/-- `Query.setStartRelationship` (src lines 1090-1096) for an explicit
`Relationship` argument: add the relationship to the match set when it is
not already there and a `relationType` argument was supplied
(`relationTypeGiven`), then store the rendered start clause. -/
def setStartRelationship (q : QueryE) (r : RelE)
    (relationTypeGiven : Bool) : QueryE :=
  let q := if r ∉ q.«match» && relationTypeGiven then addRelationship q r else q
  { q with start := some ("start " ++ r.name ++
      "=relationship:relationship_auto_index(\"type:" ++ r.relationType ++
      "\")\n") }

/-- Python `in` over a where list: some element compares `==` to the
probe. -/
def pyInW (x : WhereItem) (l : List WhereItem) : Bool :=
  l.any (fun w => w.pyEq x)

/-- `Query.addComparisonFilter` (src lines 1170-1173): build the filter
and append it unless an equal one is already in the where list
(the `filt not in self.where` membership test uses Python `==`). -/
def addComparisonFilter (q : QueryE) (pre : Operand) (op : String)
    (post : Operand) : QueryE :=
  let f : FilterE := ⟨pre, op, post⟩
  if pyInW (.filt f) q.«where» then q
  else { q with «where» := q.«where» ++ [.filt f] }

/-- `Query.addCypherFilter` (src line 1198): append the raw text. -/
def addCypherFilter (q : QueryE) (s : String) : QueryE :=
  { q with «where» := q.«where» ++ [.raw s] }

/-- `Query.addReturns` (src lines 1221-1222): append each property. -/
def addReturns (q : QueryE) (ps : List PropertyE) : QueryE :=
  { q with returns := q.returns ++ ps }

/-- `Query.setLimit` (src line 1228). -/
def setLimit (q : QueryE) (n : Int) : QueryE := { q with limit := some n }

/-- `Query.setOrder` (src line 1237): append the sort key. -/
def setOrder (q : QueryE) (p : PropertyE) : QueryE :=
  { q with orders := q.orders ++ [p] }

/-- The auto-generated type filter built by `_assemblePattern` for a
referenced node: `Filter(query, node.type, '=', node.nodeType)`, where
`node.type` is the lazily created `Property(query, node, 'type')`. -/
def autoTypeFilter (n : NodeE) : FilterE :=
  ⟨.prop ⟨.node n, "type"⟩, "=", .str n.nodeType⟩

/-- The body of the loop at the top of `_assemblePattern`
(src lines 1449-1450), folded over a node list:
`self.addComparisonFilter(node.type, '=', node.nodeType)`. -/
def addFiltersFor (l : List NodeE) (q : QueryE) : QueryE :=
  l.foldl
    (fun acc n => addComparisonFilter acc (.prop ⟨.node n, "type"⟩) "="
      (.str n.nodeType)) q

/-- The loop at the top of `_assemblePattern` (src lines 1449-1450):
`for node in self.nodes: ...` over the query's node set. -/
def addAutoFilters (q : QueryE) : QueryE :=
  addFiltersFor q.nodes q

/-- Python truthiness of `self.limit` (`if self.limit:`): false for the
initial `''` and for `0`. -/
def pyTruthyLimit : Option Int → Bool
  | none => false
  | some n => n != 0

/-- Python `sep.join(parts)`. -/
def joinSep (sep : String) : List String → String
  | [] => ""
  | [x] => x
  | x :: y :: rest => x ++ sep ++ joinSep sep (y :: rest)

/-- The clause concatenation of `_assemblePattern` (src lines 1455-1468)
for a given start clause: `start + match + where + return + order +
limit`, each optional clause rendered exactly as in the source. -/
def renderPattern (startStr : String) (q : QueryE) : String :=
  let matchStr := if q.«match».isEmpty then "" else
    "match\n" ++ joinSep ",\n" (q.«match».map RelE.render) ++ "\n"
  let whereStr := if q.«where».isEmpty then "" else
    "where\n" ++ joinSep "\nand " (q.«where».map WhereItem.render) ++ "\n"
  let returnStr := if q.returns.isEmpty then "return *\n" else
    "return " ++ joinSep ", " (q.returns.map PropertyE.render) ++ "\n"
  let orderStr := if q.orders.isEmpty then "" else
    "order by" ++ joinSep ", " (q.orders.map PropertyE.render) ++ "\n"
  let limitStr := if pyTruthyLimit q.limit then
    "limit " ++ toString (q.limit.getD 0) ++ "\n" else ""
  startStr ++ matchStr ++ whereStr ++ returnStr ++ orderStr ++ limitStr

/-- `Query._assemblePattern` (src lines 1448-1469): add the automatic
type filters, fail when no start point was ever set (`sys.exit(1)` after
the missing-start message), otherwise concatenate the clause strings in
fixed order. Returns the pattern text together with the updated query
state (the Python method mutates `self.where` in place). -/
def assemblePattern (q : QueryE) :
    Except String (String × QueryE) :=
  let q := addAutoFilters q
  match q.start with
  | none =>
      .error "setStartNode() or setStartRelationship() must be called first.\n"
  | some startStr => .ok (renderPattern startStr q, q)

/-! Claim-side renderings of the assembled pattern, written from the
specification's description of the wire format: the concatenation, in
fixed order, of start clause, match clause (`'match\n'` plus the match
clauses joined by `',\n'`, when non-empty), where clause (`'where\n'`
plus the filter clauses joined by `'\nand '`, when non-empty), return
clause (`'return '` plus the returns joined by `', '`, or `'return *'`
without explicit returns), order-by clause (the sort keys joined by
`', '`, when present), and limit clause. Omitted clauses contribute no
text; each rendered clause carries its line terminator. -/

/-- Claim-side pattern text with the limit clause present whenever a
limit is set (the literal reading of the specification). -/
def claimRender (startStr : String) (ms : List RelE) (ws : List WhereItem)
    (rs os : List PropertyE) (lim : Option Int) : String :=
  startStr
  ++ (if ms = [] then "" else
      "match\n" ++ joinSep ",\n" (ms.map RelE.render) ++ "\n")
  ++ (if ws = [] then "" else
      "where\n" ++ joinSep "\nand " (ws.map WhereItem.render) ++ "\n")
  ++ (if rs = [] then "return *\n" else
      "return " ++ joinSep ", " (rs.map PropertyE.render) ++ "\n")
  ++ (if os = [] then "" else
      "order by" ++ joinSep ", " (os.map PropertyE.render) ++ "\n")
  ++ (match lim with
      | none => ""
      | some n => "limit " ++ toString n ++ "\n")

/-- Claim-side pattern text, amended: the limit clause renders only when
the limit was set to a nonzero value (Python's `if self.limit:`
truthiness skips a limit of `0`). -/
def claimRenderAmended (startStr : String) (ms : List RelE)
    (ws : List WhereItem) (rs os : List PropertyE) (lim : Option Int) : String :=
  startStr
  ++ (if ms = [] then "" else
      "match\n" ++ joinSep ",\n" (ms.map RelE.render) ++ "\n")
  ++ (if ws = [] then "" else
      "where\n" ++ joinSep "\nand " (ws.map WhereItem.render) ++ "\n")
  ++ (if rs = [] then "return *\n" else
      "return " ++ joinSep ", " (rs.map PropertyE.render) ++ "\n")
  ++ (if os = [] then "" else
      "order by" ++ joinSep ", " (os.map PropertyE.render) ++ "\n")
  ++ (match lim with
      | none => ""
      | some n => if n = 0 then "" else "limit " ++ toString n ++ "\n")

/-- Query states reachable by the builder API from a fresh `Query`:
`Query.__init__` followed by any sequence of `setStartNode`,
`setStartRelationship`, `addRelationship`, `addComparisonFilter`,
`addCypherFilter`, `addReturns`, `setLimit`, `setOrder`, and the in-place
mutation performed by `_assemblePattern` during `execute()`. -/
inductive Built : QueryE → Prop
  | init : Built emptyQuery
  | startNode {q} (n : NodeE) : Built q → Built (setStartNode q n)
  | startRel {q} (r : RelE) (g : Bool) : Built q →
      Built (setStartRelationship q r g)
  | addRel {q} (r : RelE) : Built q → Built (addRelationship q r)
  | addCompFilter {q} (pre : Operand) (op : String) (post : Operand) :
      Built q → Built (addComparisonFilter q pre op post)
  | addCypher {q} (s : String) : Built q → Built (addCypherFilter q s)
  | addRets {q} (ps : List PropertyE) : Built q → Built (addReturns q ps)
  | limitSet {q} (n : Int) : Built q → Built (setLimit q n)
  | orderSet {q} (p : PropertyE) : Built q → Built (setOrder q p)
  | assembled {q p q'} : Built q → assemblePattern q = .ok (p, q') → Built q'

/-! Entity naming, `Entity._addName` (src lines 1619-1630). The
`random.randint(0, 9999)` stream is passed in explicitly as a list of
draws; running out of draws models the (unreachable in practice)
divergence of the `while` loop and is returned as `none`. -/

/-- The `'%s%04d'` rendering of a generated candidate name: wildcard
types print as `Generic`, the draw is zero-padded to four digits. -/
def genRender (entityType : String) (d : Nat) : String :=
  (if entityType = "*" then "Generic" else entityType) ++
    padZeros 4 (toString (d % 10000))

/-- The generation loop of `_addName`: draw candidates until one is not
in the used-name registry. -/
def genName (entityType : String) (used : List String) :
    List Nat → Option String
  | [] => none
  | d :: rest =>
      let cand := genRender entityType d
      if cand ∈ used then genName entityType used rest else some cand

/-- Python falsiness of the `name` argument (`while not name:`): `None`
and the empty string both trigger generation. -/
def isFalsyName : Option String → Bool
  | none => true
  | some s => s == ""

/-- `Entity._addName` (src lines 1619-1630): generate a name when none
was supplied, then raise `ValueError` if the name is already registered,
else register it. The result pairs the outcome (`ok` with the chosen
name, or `error` with the `ValueError` message) with the registry after
the call; `none` models a diverging generation loop. -/
def addName (entityType : String) (supplied : Option String)
    (used : List String) (draws : List Nat) :
    Option (Except String String × List String) :=
  let name? := if isFalsyName supplied then genName entityType used draws
               else supplied
  match name? with
  | none => none
  | some n =>
      if n ∈ used then
        some (.error ("The name \"" ++ n ++ "\" is already being used."), used)
      else
        some (.ok n, used ++ [n])

/-! Stored-text-to-value conversion, `_convertFromString`
(src lines 136-154), with the value-to-string direction `unicode(val)` /
`str(val)` used when properties are written (src line 813). Python's
`int()` and `float()` argument grammars are modelled as: optional
surrounding whitespace, optional sign, decimal digits, with at most one
decimal point for `float()` (exponent and `inf`/`nan` forms are outside
the model); float values are exact decimals (`PyFloat`). -/

/-- A Python property value as handled by `_convertFromString`. -/
inductive PyVal where
  | str (s : String)
  | int (n : Int)
  | float (f : PyFloat)
  | bool (b : Bool)
  | none
  deriving DecidableEq, Repr

/-- Whether a value is a Python string (the `isinstance(val, (str,
unicode))` test). -/
def PyVal.isStr : PyVal → Bool
  | .str _ => true
  | _ => false

/-- Value of a nonempty all-digit character list, `none` otherwise
(an empty list is accepted with value `0`; callers rule it out where
Python does). -/
def digitsVal : List Char → Option Nat
  | cs =>
      if cs.all Char.isDigit then
        some (cs.foldl (fun a c => a * 10 + (c.toNat - 48)) 0)
      else none

/-- Python whitespace stripping of `int()`/`float()` arguments: drop
leading and trailing whitespace characters. -/
def pyTrim (cs : List Char) : List Char :=
  ((cs.dropWhile Char.isWhitespace).reverse.dropWhile Char.isWhitespace).reverse

/-- The `val.find('.') >= 0` test: the string contains a dot. -/
def hasDot (s : String) : Bool := s.toList.contains '.'

/-- Model of Python `int(s)`: strip whitespace, optional sign, one or
more digits. -/
def pyParseInt (s : String) : Option Int :=
  let cs := pyTrim s.toList
  match cs with
  | '+' :: rest =>
      if rest = [] then none else (digitsVal rest).map Int.ofNat
  | '-' :: rest =>
      if rest = [] then none else (digitsVal rest).map (fun n => -(n : Int))
  | rest =>
      if rest = [] then none else (digitsVal rest).map Int.ofNat

/-- The `e`/`E` exponent marker of Python float notation. -/
def isExpMarker (c : Char) : Bool := c == 'e' || c == 'E'

/-- Split a float literal at the first exponent marker: the mantissa
characters and, when a marker is present, the characters after it. -/
def splitExponent (cs : List Char) : List Char × Option (List Char) :=
  match cs.span (fun c => !(isExpMarker c)) with
  | (mant, []) => (mant, Option.none)
  | (mant, _ :: rest) => (mant, some rest)

/-- The exponent field of a Python float literal: optional sign, one or
more digits. -/
def parseExpPart (cs : List Char) : Option Int :=
  match cs with
  | '+' :: rest =>
      if rest = [] then Option.none else (digitsVal rest).map Int.ofNat
  | '-' :: rest =>
      if rest = [] then Option.none
      else (digitsVal rest).map (fun n => -(n : Int))
  | rest =>
      if rest = [] then Option.none else (digitsVal rest).map Int.ofNat

/-- The value `sign * m * 10 ^ k / 10 ^ e` as a `PyFloat`: the decimal
exponent `k` is folded into the mantissa (when it outweighs the
fractional digits) or into the denominator exponent. -/
def scaleByExp (sign : Int) (m e : Nat) (k : Int) : PyFloat :=
  if (e : Int) ≤ k then ⟨sign * (m : Int) * 10 ^ (k - (e : Int)).toNat, 0⟩
  else ⟨sign * (m : Int), ((e : Int) - k).toNat⟩

/-- Model of Python `float(s)`: strip whitespace, optional sign, then
digits with at most one decimal point (at least one digit overall) and
an optional `e`/`E` exponent with optional sign, e.g.
`float('1.5e3') = 1500.0`. The `inf`/`nan` spellings are spelled without
a dot, so `_convertFromString`, which tries `float()` only on
dot-containing strings, can never reach them; they are outside the
model. -/
def pyParseFloat (s : String) : Option PyFloat :=
  let cs := pyTrim s.toList
  let (sign, cs) : Int × List Char :=
    match cs with
    | '+' :: rest => (1, rest)
    | '-' :: rest => (-1, rest)
    | rest => (1, rest)
  let (mant, expo) := splitExponent cs
  let k? : Option Int :=
    match expo with
    | Option.none => some 0
    | some ecs => parseExpPart ecs
  match k? with
  | Option.none => Option.none
  | some k =>
      match mant.splitOn '.' with
      | [ip] =>
          if ip = [] then Option.none else
            (digitsVal ip).map (fun n => scaleByExp sign n 0 k)
      | [ip, fp] =>
          if ip = [] && fp = [] then Option.none else
            match digitsVal ip, digitsVal fp with
            | some i, some f =>
                some (scaleByExp sign (i * 10 ^ fp.length + f) fp.length k)
            | _, _ => Option.none
      | _ => Option.none

/-- `_convertFromString` (src lines 136-154): non-strings pass through;
`'None'`/`'True'`/`'False'` become the corresponding constants; a string
containing `'.'` is tried as a float, any other string as an int, and the
string is returned unchanged when parsing fails. -/
def convertFromString (v : PyVal) : PyVal :=
  match v with
  | .str s =>
      if s = "None" then .none
      else if s = "True" then .bool true
      else if s = "False" then .bool false
      else if hasDot s then
        match pyParseFloat s with
        | some f => .float f
        | Option.none => .str s
      else
        match pyParseInt s with
        | some n => .int n
        | Option.none => .str s
  | v => v

/-- The value-to-string direction (`unicode(val)` at src line 813 for
non-numeric values, `str(val)` for numbers): booleans print as
`True`/`False`, `None` as `None`, integers and floats in Python's
decimal notation, strings unchanged. -/
def pyStr : PyVal → String
  | .str s => s
  | .int n => toString n
  | .float f => f.str
  | .bool b => pyStrBool b
  | .none => "None"

/-! The signed modulo helper `_signedModulo` (src lines 126-134),
embedded with explicit fuel: the Python `while` loop need not terminate
when `mod <= 0`, and exhausted fuel is returned as `none`. -/

/-- The loop body of `_signedModulo`: `while abs(val) > mod: val -= mod *
sign`. -/
def signedModuloGo (mod sign : Int) : Nat → Int → Option Int
  | 0, _ => none
  | fuel + 1, val =>
      if |val| > mod then signedModuloGo mod sign fuel (val - mod * sign)
      else some val

/-- `_signedModulo(val, mod)`: `0` maps to `0`; otherwise run the loop
with `sign = val / abs(val)` (Python floor division, exact here). -/
def signedModulo (fuel : Nat) (val mod : Int) : Option Int :=
  if val = 0 then some 0
  else signedModuloGo mod (Int.fdiv val |val|) fuel val

/-! Root identification inside `Query.music21Score` (src lines
1261-1276). The accumulated map sends a node id to the pair (node
handle, property dict); the lookup expression on line 1274 is embedded
literally: `[x for x in nodes if nodes[1]['type'] == 'Score'][0]`.
Evaluating `nodes[1]` raises `KeyError` when no node has id `1`;
otherwise the result is the `(node, properties)` tuple and subscripting
it with the string `'type'` raises `TypeError`. Taking `[0]` of an empty
comprehension raises `IndexError`. -/

/-- The Python exceptions the root-identification expression can raise. -/
inductive PyErr where
  | keyError
  | typeError
  | indexError
  deriving DecidableEq, Repr

/-- The accumulated node map: node id to (handle, property dict), the
property dict an association list. The handle itself carries no data the
expression uses and is dropped; the stored pair is a Python tuple. -/
abbrev NodesMap := List (Nat × List (String × String))

/-- One evaluation of the comprehension condition
`nodes[1]['type'] == 'Score'`: `KeyError` when key `1` is absent,
otherwise `TypeError` from subscripting the tuple with a string. -/
def rootCondEval (m : NodesMap) : Except PyErr Bool :=
  match m.lookup 1 with
  | Option.none => .error .keyError
  | some _ => .error .typeError

/-- The comprehension `[x for x in nodes if nodes[1]['type'] ==
'Score']`, evaluating the condition left to right and propagating the
first exception. -/
def rootCandidates (m : NodesMap) : List Nat → Except PyErr (List Nat)
  | [] => .ok []
  | k :: ks =>
      match rootCondEval m with
      | .error e => .error e
      | .ok c =>
          match rootCandidates m ks with
          | .error e => .error e
          | .ok rest => .ok (if c then k :: rest else rest)

/-- Line 1274 of the source: the id picked as the reconstruction's entry
point, `[x for x in nodes if nodes[1]['type'] == 'Score'][0]`. -/
def scoreNodeId (m : NodesMap) : Except PyErr Nat :=
  match rootCandidates m (m.map Prod.fst) with
  | .error e => .error e
  | .ok [] => .error .indexError
  | .ok (x :: _) => .ok x

/-! Python `==` across entity kinds, `Entity.__eq__` (src lines
1606-1608): `isinstance(other, self.__class__) and self.__dict__ ==
other.__dict__`. -/

/-- The four concrete entity kinds as one value space, for stating
cross-kind equality. -/
inductive EntityV where
  | node (n : NodeE)
  | rel (r : RelE)
  | property (p : PropertyE)
  | filt (f : FilterE)
  deriving DecidableEq, Repr

/-- `Entity.__eq__`: the `isinstance` test fails across kinds; within a
kind the attribute dictionaries compare field by field (the shared
`query` reference and the constant fields noted on each structure are
omitted). Node, Relationship and Property dictionaries hold only strings,
optional integers and nested entities, so their comparison is structural;
Filter dictionaries hold literal operands, compared with Python `==`. -/
def EntityV.pyEq : EntityV → EntityV → Bool
  | .node a, .node b => a == b
  | .rel a, .rel b => a == b
  | .property a, .property b => a == b
  | .filt a, .filt b => a.pyEq b
  | _, _ => false

/-- The concrete kind of an entity value. -/
def EntityV.kind : EntityV → Nat
  | .node _ => 0
  | .rel _ => 1
  | .property _ => 2
  | .filt _ => 3

/-- Attribute-dictionary equality between two entity values of the same
kind, the claim-side reading of "identical attribute dictionaries": every
attribute of the one compares `==` (Python equality) to the same
attribute of the other. Dictionaries of different kinds have different
key sets and are never equal. -/
def EntityV.attrsEq : EntityV → EntityV → Bool
  | .node a, .node b =>
      a.name == b.name && a.nodeType == b.nodeType && a.id == b.id
  | .rel a, .rel b =>
      a.name == b.name && a.relationType == b.relationType &&
        a.start == b.start && a.«end» == b.«end» && a.optional == b.optional
  | .property a, .property b => a.parent == b.parent && a.name == b.name
  | .filt a, .filt b =>
      a.pre.pyEq b.pre && a.operator == b.operator && a.post.pyEq b.post
  | _, _ => false

/-- One string occurs inside another (contiguously). -/
def SubstrOf (x s : String) : Prop := x.toList <:+: s.toList

/-- Whether an `Except` computation succeeded. -/
def exceptIsOk : Except ε α → Bool
  | .ok _ => true
  | .error _ => false

/-! Concrete entities and query states used to evaluate the development
on closed inputs. -/

/-- A typed note node. -/
def exNote1 : NodeE := ⟨"Note1", "Note", Option.none⟩

/-- A second typed note node. -/
def exNote2 : NodeE := ⟨"Note2", "Note", Option.none⟩

/-- A typed score node. -/
def exScore1 : NodeE := ⟨"Score1", "Score", Option.none⟩

/-- A wildcard node, as created when no type is supplied. -/
def exWild : NodeE := ⟨"Generic0001", "*", Option.none⟩

/-- A simultaneity relationship between the two note nodes. -/
def exRel : RelE := ⟨"R1", "NoteSimultaneousWithNote", exNote1, exNote2, ""⟩

/-- A query whose limit was set to `0` after setting a start node. -/
def limitZeroQuery : QueryE := setLimit (setStartNode emptyQuery exScore1) 0

/-- A start-node query with one relationship and limit `5`. -/
def exQuery : QueryE :=
  setLimit (addRelationship (setStartNode emptyQuery exNote1) exRel) 5

/-- The same relationship passed to `addRelationship` twice on a
start-node query. -/
def doubleAddQuery : QueryE :=
  addRelationship (addRelationship (setStartNode emptyQuery exNote1) exRel)
    exRel

/-- A start-node query with one relationship, for the auto-filter claim. -/
def exQueryC2 : QueryE := addRelationship (setStartNode emptyQuery exNote1) exRel

/-- A start-node query with one relationship, for the re-assembly claim. -/
def exQueryC3 : QueryE := addRelationship (setStartNode emptyQuery exNote2) exRel

/-! Basic facts about Python equality and the where-list update. -/

theorem pyFloat_pyEq_refl (a : PyFloat) : a.pyEq a = true := by
  simp [PyFloat.pyEq]

theorem operand_pyEq_refl (a : Operand) : a.pyEq a = true := by
  cases a <;> simp [Operand.pyEq, pyFloat_pyEq_refl]

theorem filterE_pyEq_refl (f : FilterE) : f.pyEq f = true := by
  simp [FilterE.pyEq, operand_pyEq_refl]

theorem whereItem_pyEq_refl (w : WhereItem) : w.pyEq w = true := by
  cases w <;> simp [WhereItem.pyEq, filterE_pyEq_refl]

theorem pyEq_autoTypeFilter {w : WhereItem} {n : NodeE}
    (h : w.pyEq (.filt (autoTypeFilter n)) = true) :
    w = .filt (autoTypeFilter n) := by
  cases w with
  | raw s => simp [WhereItem.pyEq] at h
  | filt f =>
      obtain ⟨pre, op, post⟩ := f
      cases pre <;> cases post <;>
        simp_all [WhereItem.pyEq, FilterE.pyEq, autoTypeFilter, Operand.pyEq]

theorem addComparisonFilter_eq (q : QueryE) (pre : Operand) (op : String)
    (post : Operand) :
    addComparisonFilter q pre op post =
      if pyInW (.filt ⟨pre, op, post⟩) q.«where» then q
      else { q with «where» := q.«where» ++ [.filt ⟨pre, op, post⟩] } := rfl

theorem addCompFilter_shape (q : QueryE) (pre : Operand) (op : String)
    (post : Operand) :
    ∃ t, addComparisonFilter q pre op post = { q with «where» := q.«where» ++ t }
      ∧ ∀ w ∈ t, w = WhereItem.filt ⟨pre, op, post⟩ := by
  rw [addComparisonFilter_eq]
  split
  · exact ⟨[], by simp, by simp⟩
  · exact ⟨[.filt ⟨pre, op, post⟩], rfl, by simp⟩

theorem addCompFilter_of_present {q : QueryE} {pre : Operand} {op : String}
    {post : Operand} (h : pyInW (.filt ⟨pre, op, post⟩) q.«where» = true) :
    addComparisonFilter q pre op post = q := by
  rw [addComparisonFilter_eq, if_pos h]

theorem pyInW_append_left {x : WhereItem} {l t : List WhereItem}
    (h : pyInW x l = true) : pyInW x (l ++ t) = true := by
  simp only [pyInW, List.any_append, Bool.or_eq_true]
  exact Or.inl h

theorem pyInW_addCompFilter_self (q : QueryE) (pre : Operand) (op : String)
    (post : Operand) :
    pyInW (.filt ⟨pre, op, post⟩) ((addComparisonFilter q pre op post).«where») = true := by
  rw [addComparisonFilter_eq]
  split
  · assumption
  · simp [pyInW, List.any_append, whereItem_pyEq_refl]

theorem addFiltersFor_spec (l : List NodeE) (q : QueryE) :
    ∃ t, addFiltersFor l q = { q with «where» := q.«where» ++ t }
      ∧ ∀ w ∈ t, ∃ m, m ∈ l ∧ w = .filt (autoTypeFilter m) := by
  induction l generalizing q with
  | nil => exact ⟨[], by simp [addFiltersFor], by simp⟩
  | cons n ns ih =>
      obtain ⟨t0, h0, h0w⟩ :=
        addCompFilter_shape q (.prop ⟨.node n, "type"⟩) "=" (.str n.nodeType)
      obtain ⟨t1, h1, h1w⟩ :=
        ih (addComparisonFilter q (.prop ⟨.node n, "type"⟩) "=" (.str n.nodeType))
      refine ⟨t0 ++ t1, ?_, ?_⟩
      · show addFiltersFor ns
          (addComparisonFilter q (.prop ⟨.node n, "type"⟩) "=" (.str n.nodeType)) = _
        rw [h1, h0]
        simp [List.append_assoc]
      · intro w hw
        rcases List.mem_append.mp hw with hw | hw
        · exact ⟨n, by simp, h0w w hw⟩
        · obtain ⟨m, hm, hwm⟩ := h1w w hw
          exact ⟨m, by simp [hm], hwm⟩

theorem mem_addFiltersFor {n : NodeE} :
    ∀ (l : List NodeE) (q : QueryE), n ∈ l →
      pyInW (.filt (autoTypeFilter n)) ((addFiltersFor l q).«where») = true := by
  intro l
  induction l with
  | nil => intro q h; simp at h
  | cons m ms ih =>
      intro q h
      rcases List.mem_cons.mp h with h | h
      · subst h
        obtain ⟨t, ht, _⟩ := addFiltersFor_spec ms
          (addComparisonFilter q (.prop ⟨.node n, "type"⟩) "=" (.str n.nodeType))
        show pyInW _ ((addFiltersFor ms _).«where») = true
        rw [ht]
        exact pyInW_append_left (pyInW_addCompFilter_self q _ _ _)
      · exact ih _ h

theorem addFiltersFor_of_all_present :
    ∀ (l : List NodeE) (q : QueryE),
      (∀ n ∈ l, pyInW (.filt (autoTypeFilter n)) q.«where» = true) →
      addFiltersFor l q = q := by
  intro l
  induction l with
  | nil => intro q _; rfl
  | cons m ms ih =>
      intro q h
      show addFiltersFor ms (addComparisonFilter q _ _ _) = q
      rw [addCompFilter_of_present (h m (by simp))]
      exact ih q (fun n hn => h n (by simp [hn]))

theorem addAutoFilters_nodes (q : QueryE) : (addAutoFilters q).nodes = q.nodes := by
  obtain ⟨t, ht, _⟩ := addFiltersFor_spec q.nodes q
  rw [addAutoFilters, ht]

theorem addAutoFilters_idem (q : QueryE) :
    addAutoFilters (addAutoFilters q) = addAutoFilters q := by
  have hnodes := addAutoFilters_nodes q
  show addFiltersFor (addAutoFilters q).nodes (addAutoFilters q) = addAutoFilters q
  rw [hnodes]
  exact addFiltersFor_of_all_present q.nodes (addAutoFilters q)
    (fun n hn => mem_addFiltersFor q.nodes q hn)

/-! Substring facts for the rendered pattern. -/

theorem substrOf_append_right {x s : String} (t : String)
    (h : SubstrOf x s) : SubstrOf x (s ++ t) := by
  unfold SubstrOf at h ⊢
  show x.toList <:+: (s ++ t).data
  rw [String.data_append]
  exact h.trans (List.prefix_append s.data t.data).isInfix

theorem substrOf_append_left {x s : String} (t : String)
    (h : SubstrOf x s) : SubstrOf x (t ++ s) := by
  unfold SubstrOf at h ⊢
  show x.toList <:+: (t ++ s).data
  rw [String.data_append]
  exact h.trans (List.suffix_append t.data s.data).isInfix

theorem substrOf_refl (x : String) : SubstrOf x x :=
  List.infix_refl x.toList

theorem substrOf_joinSep {x : String} {sep : String} :
    ∀ {l : List String}, x ∈ l → SubstrOf x (joinSep sep l) := by
  intro l
  induction l with
  | nil => intro h; simp at h
  | cons a as ih =>
      intro h
      rcases List.mem_cons.mp h with h | h
      · subst h
        cases as with
        | nil => exact substrOf_refl x
        | cons b bs =>
            show SubstrOf x (x ++ sep ++ joinSep sep (b :: bs))
            exact substrOf_append_right _ (substrOf_append_right _ (substrOf_refl x))
      · cases as with
        | nil => simp at h
        | cons b bs =>
            show SubstrOf x (a ++ sep ++ joinSep sep (b :: bs))
            exact substrOf_append_left _ (ih h)

/-! Field preservation through the auto-filter pass. -/

theorem addAutoFilters_start (q : QueryE) : (addAutoFilters q).start = q.start := by
  obtain ⟨t, ht, _⟩ := addFiltersFor_spec q.nodes q
  rw [addAutoFilters, ht]

theorem addAutoFilters_match (q : QueryE) :
    (addAutoFilters q).«match» = q.«match» := by
  obtain ⟨t, ht, _⟩ := addFiltersFor_spec q.nodes q
  rw [addAutoFilters, ht]

theorem addAutoFilters_where (q : QueryE) :
    ∃ t, (addAutoFilters q).«where» = q.«where» ++ t
      ∧ ∀ w ∈ t, ∃ m, m ∈ q.nodes ∧ w = .filt (autoTypeFilter m) := by
  obtain ⟨t, ht, hw⟩ := addFiltersFor_spec q.nodes q
  exact ⟨t, by rw [addAutoFilters, ht], hw⟩

/-- Claim C4: assembling a Query with no start point fails with the
missing-start-point error and returns no pattern text; assembling a Query
whose start point is set always succeeds (the only error branch of
`_assemblePattern` is the missing-start check). -/
theorem assemble_requires_start :
    (∀ q : QueryE, q.start = none →
      assemblePattern q =
        .error "setStartNode() or setStartRelationship() must be called first.\n")
    ∧ (∀ (q : QueryE) (s : String), q.start = some s →
      assemblePattern q =
        .ok (renderPattern s (addAutoFilters q), addAutoFilters q)) := by
  constructor
  · intro q h
    have h' : (addAutoFilters q).start = none := by rw [addAutoFilters_start, h]
    simp only [assemblePattern, h']
  · intro q s h
    have h' : (addAutoFilters q).start = some s := by rw [addAutoFilters_start, h]
    simp only [assemblePattern, h']

/-- Witness for C4 at concrete inputs: a fresh Query has no start point
and assembly fails; after `setStartNode` assembly succeeds. -/
theorem assemble_requires_start_witness :
    emptyQuery.start = none ∧
    assemblePattern emptyQuery =
      .error "setStartNode() or setStartRelationship() must be called first.\n" ∧
    (setStartNode emptyQuery exScore1).start =
      some "start Score1=node:node_auto_index(\"type:Score\")\n" ∧
    assemblePattern (setStartNode emptyQuery exScore1) =
      .ok (renderPattern "start Score1=node:node_auto_index(\"type:Score\")\n"
            (addAutoFilters (setStartNode emptyQuery exScore1)),
          addAutoFilters (setStartNode emptyQuery exScore1)) :=
  ⟨rfl, assemble_requires_start.1 emptyQuery rfl, by decide,
    assemble_requires_start.2 (setStartNode emptyQuery exScore1) _ (by decide)⟩

/-- Claim C7 (code bug at src line 1274): root identification evaluates
`nodes[1]['type']` — the map subscripted with the literal key `1` and the
resulting tuple subscripted with a string — so on a map holding exactly
one Score node (id 0) it raises `KeyError` instead of using that node as
the entry point, and on every input it raises (`IndexError` on an empty
map, `KeyError` or `TypeError` otherwise), never returning a root id. -/
theorem scoreNodeId_never_identifies_root :
    scoreNodeId [(0, [("type", "Score")])] = .error .keyError
    ∧ ∀ m : NodesMap, exceptIsOk (scoreNodeId m) = false := by
  have hcond : ∀ m : NodesMap, ∃ e, rootCondEval m = .error e := by
    intro m
    unfold rootCondEval
    cases m.lookup 1 <;> exact ⟨_, rfl⟩
  constructor
  · rfl
  · intro m
    cases m with
    | nil => rfl
    | cons hd tl =>
        obtain ⟨e, he⟩ := hcond (hd :: tl)
        show exceptIsOk (scoreNodeId (hd :: tl)) = false
        unfold scoreNodeId
        rw [List.map_cons]
        unfold rootCandidates
        rw [he]
        rfl

/-- Claim C9: a Filter renders as `<pre> <operator> <post>`; string and
boolean operands render quoted in double quotes, integers and Property
tokens render bare, a Property as `<parent name>.<property name>`; in
particular an integer operand `7` renders as the bare token `7`, so a
comparison against it ends in `= 7`, unquoted. -/
theorem filter_render_spec :
    (∀ f : FilterE, f.render =
      f.pre.render ++ " " ++ f.operator ++ " " ++ f.post.render)
    ∧ (∀ s : String, (Operand.str s).render = "\"" ++ s ++ "\"")
    ∧ (∀ b : Bool, (Operand.bool b).render = "\"" ++ pyStrBool b ++ "\"")
    ∧ (∀ n : Int, (Operand.int n).render = toString n)
    ∧ (∀ p : PropertyE, (Operand.prop p).render =
        p.parent.name ++ "." ++ p.name)
    ∧ (Operand.int 7).render = "7"
    ∧ (∀ pre : Operand, FilterE.render ⟨pre, "=", .int 7⟩ =
        pre.render ++ " = 7") := by
  refine ⟨fun f => rfl, fun s => rfl, fun b => rfl, fun n => rfl,
    fun p => rfl, by decide, ?_⟩
  intro pre
  show pre.render ++ " " ++ "=" ++ " " ++ (Operand.int 7).render =
    pre.render ++ " = 7"
  have h7 : (Operand.int 7).render = "7" := by decide
  rw [h7]
  apply String.ext
  simp [String.data_append, List.append_assoc]

/-! Claim C1: the assembled text against the specification's clause-order
description. -/

theorem renderPattern_eq_claimAmended (s : String) (q : QueryE) :
    renderPattern s q =
      claimRenderAmended s q.«match» q.«where» q.returns q.orders q.limit := by
  cases hl : q.limit with
  | none =>
      simp [renderPattern, claimRenderAmended, pyTruthyLimit, hl,
        List.isEmpty_iff]
  | some n =>
      by_cases hn : n = 0
      · subst hn
        simp [renderPattern, claimRenderAmended, pyTruthyLimit, hl,
          List.isEmpty_iff]
      · simp [renderPattern, claimRenderAmended, pyTruthyLimit, hl, hn,
          List.isEmpty_iff]

/-- Counterexample to C1 as stated: `setLimit(0)` sets a limit, yet the
assembled text of a start-only query with limit `0` carries no limit
clause, while the claim's rendering (a limit clause whenever a limit is
set) appends `limit 0`. -/
theorem limitZero_no_limit_clause :
    assemblePattern limitZeroQuery =
      .ok ("start Score1=node:node_auto_index(\"type:Score\")\nreturn *\n",
        limitZeroQuery)
    ∧ limitZeroQuery.limit = some 0
    ∧ (claimRender "start Score1=node:node_auto_index(\"type:Score\")\n"
        limitZeroQuery.«match» limitZeroQuery.«where» limitZeroQuery.returns
        limitZeroQuery.orders limitZeroQuery.limit ==
          "start Score1=node:node_auto_index(\"type:Score\")\nreturn *\n")
        = false := by
  refine ⟨rfl, rfl, by decide⟩

/-- Claim C1 (amended): for every Query that assembles successfully, the
pattern text is exactly the fixed-order concatenation of start, match
(`',\n'`-joined), where (`'\nand '`-joined), return (or `return *`),
order-by (`', '`-joined) and limit clauses over the assembled state's
lists, the limit clause appearing only when a nonzero limit is set. -/
theorem assemble_renders_claim (q : QueryE) (p : String) (q' : QueryE)
    (h : assemblePattern q = .ok (p, q')) :
    p = claimRenderAmended (q'.start.getD "") q'.«match» q'.«where»
      q'.returns q'.orders q'.limit := by
  simp only [assemblePattern] at h
  split at h
  · exact absurd h (by simp)
  · rename_i startStr heq
    rw [Except.ok.injEq, Prod.mk.injEq] at h
    obtain ⟨hp, hq⟩ := h
    subst hq
    rw [← hp, heq]
    exact renderPattern_eq_claimAmended startStr (addAutoFilters q)

/-- Witness for the amended C1 at a concrete query with a relationship,
auto filters and limit `5`. -/
theorem assemble_renders_claim_witness :
    assemblePattern exQuery =
      .ok ("start Note1=node:node_auto_index(\"type:Note\")\nmatch\n(Note1)-[R1:NoteSimultaneousWithNote]->(Note2)\nwhere\nNote1.type = \"Note\"\nand Note2.type = \"Note\"\nreturn *\nlimit 5\n",
        addAutoFilters exQuery)
    ∧ "start Note1=node:node_auto_index(\"type:Note\")\nmatch\n(Note1)-[R1:NoteSimultaneousWithNote]->(Note2)\nwhere\nNote1.type = \"Note\"\nand Note2.type = \"Note\"\nreturn *\nlimit 5\n"
      = claimRenderAmended ((addAutoFilters exQuery).start.getD "")
          (addAutoFilters exQuery).«match» (addAutoFilters exQuery).«where»
          (addAutoFilters exQuery).returns (addAutoFilters exQuery).orders
          (addAutoFilters exQuery).limit :=
  ⟨rfl, assemble_renders_claim exQuery _ _ rfl⟩

/-! Claim C3: re-assembling an assembled query is byte-identical. -/

/-- Claim C3: assembling a Query and assembling the resulting state again
with no mutation in between (as `execute()` twice does) yields the
identical pattern text and state: the auto-added type filters are
deduplicated by the structural-equality membership test, so the second
pass appends nothing. -/
theorem reassemble_deterministic (q : QueryE) (p : String) (q' : QueryE)
    (h : assemblePattern q = .ok (p, q')) :
    assemblePattern q' = .ok (p, q') := by
  simp only [assemblePattern] at h
  split at h
  · exact absurd h (by simp)
  · rename_i startStr heq
    rw [Except.ok.injEq, Prod.mk.injEq] at h
    obtain ⟨hp, hq⟩ := h
    subst hq
    simp only [assemblePattern, addAutoFilters_idem, heq]
    rw [hp]

/-- Witness for C3 at a concrete query: the assembled state re-assembles
to the same text. -/
theorem reassemble_deterministic_witness :
    assemblePattern exQueryC3 =
      .ok ("start Note2=node:node_auto_index(\"type:Note\")\nmatch\n(Note1)-[R1:NoteSimultaneousWithNote]->(Note2)\nwhere\nNote1.type = \"Note\"\nand Note2.type = \"Note\"\nreturn *\n",
        addAutoFilters exQueryC3)
    ∧ assemblePattern (addAutoFilters exQueryC3) =
      .ok ("start Note2=node:node_auto_index(\"type:Note\")\nmatch\n(Note1)-[R1:NoteSimultaneousWithNote]->(Note2)\nwhere\nNote1.type = \"Note\"\nand Note2.type = \"Note\"\nreturn *\n",
        addAutoFilters exQueryC3) :=
  ⟨rfl, reassemble_deterministic exQueryC3 _ _ rfl⟩

/-! Claim C2: auto-generated type filters for the nodes of the match
set. First, invariants of builder-reachable states. -/

theorem assemble_ok_state {q : QueryE} {p : String} {q' : QueryE}
    (h : assemblePattern q = .ok (p, q')) : q' = addAutoFilters q := by
  simp only [assemblePattern] at h
  split at h
  · exact absurd h (by simp)
  · rw [Except.ok.injEq, Prod.mk.injEq] at h
    exact h.2.symm

theorem setStartNode_nodes (q : QueryE) (n : NodeE) :
    (setStartNode q n).nodes = q.nodes := by
  unfold setStartNode
  split <;> rfl

theorem setStartNode_match (q : QueryE) (n : NodeE) :
    (setStartNode q n).«match» = q.«match» := by
  unfold setStartNode
  split <;> rfl

theorem mem_setAdd {m n : NodeE} {l : List NodeE} :
    m ∈ setAdd l n ↔ m ∈ l ∨ m = n := by
  unfold setAdd
  split
  · rename_i h
    constructor
    · exact Or.inl
    · rintro (hm | rfl)
      · exact hm
      · exact h
  · simp

theorem mem_addNodeStep {m n : NodeE} {acc : List NodeE} :
    m ∈ addNodeStep acc n ↔ m ∈ acc ∨ (n.nodeType ≠ "*" ∧ m = n) := by
  unfold addNodeStep
  by_cases h : n.nodeType = "*" <;> simp [h, mem_setAdd]

theorem addRelationship_nodes_mem {m : NodeE} {q : QueryE} {r : RelE} :
    m ∈ (addRelationship q r).nodes ↔
      m ∈ q.nodes ∨ (r.start.nodeType ≠ "*" ∧ m = r.start)
        ∨ (r.«end».nodeType ≠ "*" ∧ m = r.«end») := by
  show m ∈ addNodeStep (addNodeStep q.nodes r.start) r.«end» ↔ _
  rw [mem_addNodeStep, mem_addNodeStep]
  tauto

theorem addRelationship_match (q : QueryE) (r : RelE) :
    (addRelationship q r).«match» = q.«match» ++ [r] := rfl

theorem setStartRelationship_shape (q : QueryE) (r : RelE) (g : Bool) :
    setStartRelationship q r g =
      { addRelationship q r with start := some ("start " ++ r.name ++
          "=relationship:relationship_auto_index(\"type:" ++ r.relationType ++
          "\")\n") }
    ∨ setStartRelationship q r g =
      { q with start := some ("start " ++ r.name ++
          "=relationship:relationship_auto_index(\"type:" ++ r.relationType ++
          "\")\n") } := by
  unfold setStartRelationship
  split
  · exact Or.inl rfl
  · exact Or.inr rfl

theorem built_nodes_not_wild {q : QueryE} (h : Built q) :
    ∀ n ∈ q.nodes, n.nodeType ≠ "*" := by
  induction h with
  | init => intro n hn; simp [emptyQuery] at hn
  | startNode n hb ih =>
      intro m hm
      rw [setStartNode_nodes] at hm
      exact ih m hm
  | startRel r g hb ih =>
      rename_i q0
      intro m hm
      rcases setStartRelationship_shape q0 r g with hs | hs <;> rw [hs] at hm
      · have hm' : m ∈ (addRelationship q0 r).nodes := hm
        rw [addRelationship_nodes_mem] at hm'
        rcases hm' with hm' | ⟨hw, rfl⟩ | ⟨hw, rfl⟩ <;>
          first | exact ih m hm' | assumption
      · exact ih m hm
  | addRel r hb ih =>
      intro m hm
      rw [addRelationship_nodes_mem] at hm
      rcases hm with hm | ⟨hw, rfl⟩ | ⟨hw, rfl⟩ <;>
        first | exact ih m hm | assumption
  | addCompFilter pre op post hb ih =>
      rename_i q0
      intro m hm
      obtain ⟨t, ht, _⟩ := addCompFilter_shape q0 pre op post
      rw [ht] at hm
      exact ih m hm
  | addCypher s hb ih => intro m hm; exact ih m hm
  | addRets ps hb ih => intro m hm; exact ih m hm
  | limitSet n hb ih => intro m hm; exact ih m hm
  | orderSet p hb ih => intro m hm; exact ih m hm
  | assembled hb hok ih =>
      rename_i q0 p0 q1
      intro m hm
      rw [assemble_ok_state hok, addAutoFilters_nodes] at hm
      exact ih m hm

theorem built_match_nodes {q : QueryE} (h : Built q) :
    ∀ r ∈ q.«match»,
      (r.start.nodeType ≠ "*" → r.start ∈ q.nodes) ∧
      (r.«end».nodeType ≠ "*" → r.«end» ∈ q.nodes) := by
  induction h with
  | init => intro r hr; simp [emptyQuery] at hr
  | startNode n hb ih =>
      intro r hr
      rw [setStartNode_match] at hr
      rw [setStartNode_nodes]
      exact ih r hr
  | startRel r0 g hb ih =>
      rename_i q0
      intro r hr
      rcases setStartRelationship_shape q0 r0 g with hs | hs <;> rw [hs] at hr ⊢
      · have hr' : r ∈ (addRelationship q0 r0).«match» := hr
        rw [addRelationship_match] at hr'
        show (_ → r.start ∈ (addRelationship q0 r0).nodes) ∧
          (_ → r.«end» ∈ (addRelationship q0 r0).nodes)
        rcases List.mem_append.mp hr' with hr' | hr'
        · obtain ⟨h1, h2⟩ := ih r hr'
          constructor <;> intro hw <;> rw [addRelationship_nodes_mem]
          · exact Or.inl (h1 hw)
          · exact Or.inl (h2 hw)
        · rw [List.mem_singleton] at hr'
          subst hr'
          constructor <;> intro hw <;> rw [addRelationship_nodes_mem]
          · exact Or.inr (Or.inl ⟨hw, rfl⟩)
          · exact Or.inr (Or.inr ⟨hw, rfl⟩)
      · exact ih r hr
  | addRel r0 hb ih =>
      intro r hr
      rw [addRelationship_match] at hr
      rcases List.mem_append.mp hr with hr | hr
      · obtain ⟨h1, h2⟩ := ih r hr
        constructor <;> intro hw <;> rw [addRelationship_nodes_mem]
        · exact Or.inl (h1 hw)
        · exact Or.inl (h2 hw)
      · rw [List.mem_singleton] at hr
        subst hr
        constructor <;> intro hw <;> rw [addRelationship_nodes_mem]
        · exact Or.inr (Or.inl ⟨hw, rfl⟩)
        · exact Or.inr (Or.inr ⟨hw, rfl⟩)
  | addCompFilter pre op post hb ih =>
      rename_i q0
      intro r hr
      obtain ⟨t, ht, _⟩ := addCompFilter_shape q0 pre op post
      rw [ht] at hr ⊢
      exact ih r hr
  | addCypher s hb ih => intro r hr; exact ih r hr
  | addRets ps hb ih => intro r hr; exact ih r hr
  | limitSet n hb ih => intro r hr; exact ih r hr
  | orderSet p hb ih => intro r hr; exact ih r hr
  | assembled hb hok ih =>
      rename_i q0 p0 q1
      intro r hr
      rw [assemble_ok_state hok, addAutoFilters_match] at hr
      rw [assemble_ok_state hok, addAutoFilters_nodes]
      exact ih r hr

theorem substrOf_renderPattern_of_mem_where {q : QueryE} {w : WhereItem}
    (hmem : w ∈ q.«where») (s : String) :
    SubstrOf w.render (renderPattern s q) := by
  have hne : q.«where» ≠ [] := by
    intro h
    rw [h] at hmem
    simp at hmem
  have hmap : w.render ∈ q.«where».map WhereItem.render :=
    List.mem_map_of_mem _ hmem
  have hj : SubstrOf w.render (joinSep "\nand " (q.«where».map WhereItem.render)) :=
    substrOf_joinSep hmap
  have hie : q.«where».isEmpty = false := by
    simp [List.isEmpty_iff, hne]
  simp only [renderPattern, hie, Bool.false_eq_true, if_false]
  apply substrOf_append_right
  apply substrOf_append_right
  apply substrOf_append_right
  apply substrOf_append_left
  apply substrOf_append_right
  apply substrOf_append_left
  exact hj

/-- Claim C2: for a builder-reachable Query that assembles, every
non-wildcard endpoint of every matched relationship contributes an
auto-generated `node.type = "<nodeType>"` filter to the where list, whose
rendering occurs in the pattern text; wildcard nodes are never in the
node set, and every filter the assembly pass adds beyond the caller's
where list is the auto type filter of some node in the node set. -/
theorem auto_type_filters :
    (∀ (q : QueryE) (p : String) (q' : QueryE) (r : RelE) (n : NodeE),
      Built q → assemblePattern q = .ok (p, q') → r ∈ q.«match» →
      (n = r.start ∨ n = r.«end») → n.nodeType ≠ "*" →
      WhereItem.filt (autoTypeFilter n) ∈ q'.«where» ∧
        SubstrOf (autoTypeFilter n).render p)
    ∧ (∀ (q : QueryE) (n : NodeE), Built q → n.nodeType = "*" → n ∉ q.nodes)
    ∧ (∀ (q : QueryE) (p : String) (q' : QueryE) (w : WhereItem),
        assemblePattern q = .ok (p, q') → w ∈ q'.«where» → w ∉ q.«where» →
        ∃ m, m ∈ q.nodes ∧ w = .filt (autoTypeFilter m)) := by
  refine ⟨?_, ?_, ?_⟩
  · intro q p q' r n hb hok hr hn hw
    have hnode : n ∈ q.nodes := by
      obtain ⟨h1, h2⟩ := built_match_nodes hb r hr
      rcases hn with rfl | rfl
      · exact h1 hw
      · exact h2 hw
    have hq' : q' = addAutoFilters q := assemble_ok_state hok
    have hpy : pyInW (.filt (autoTypeFilter n)) ((addAutoFilters q).«where») = true :=
      mem_addFiltersFor q.nodes q hnode
    have hmem : WhereItem.filt (autoTypeFilter n) ∈ (addAutoFilters q).«where» := by
      rw [pyInW, List.any_eq_true] at hpy
      obtain ⟨w0, hw0, hweq⟩ := hpy
      have := pyEq_autoTypeFilter hweq
      rwa [← this]
    refine ⟨by rw [hq']; exact hmem, ?_⟩
    simp only [assemblePattern] at hok
    split at hok
    · exact absurd hok (by simp)
    · rename_i startStr heq
      rw [Except.ok.injEq, Prod.mk.injEq] at hok
      rw [← hok.1]
      exact substrOf_renderPattern_of_mem_where (w := .filt (autoTypeFilter n))
        hmem startStr
  · intro q n hb hwild hmem
    exact built_nodes_not_wild hb n hmem hwild
  · intro q p q' w hok hw hnw
    have hq' : q' = addAutoFilters q := assemble_ok_state hok
    obtain ⟨t, ht, htw⟩ := addAutoFilters_where q
    rw [hq', ht] at hw
    rcases List.mem_append.mp hw with hw | hw
    · exact absurd hw hnw
    · exact htw w hw

/-- Witness for C2 at a concrete query: the matched note nodes produce
rendered type filters inside the assembled text. -/
theorem auto_type_filters_witness :
    WhereItem.filt (autoTypeFilter exNote1) ∈ (addAutoFilters exQueryC2).«where»
    ∧ SubstrOf (autoTypeFilter exNote1).render
        "start Note1=node:node_auto_index(\"type:Note\")\nmatch\n(Note1)-[R1:NoteSimultaneousWithNote]->(Note2)\nwhere\nNote1.type = \"Note\"\nand Note2.type = \"Note\"\nreturn *\n" :=
  auto_type_filters.1 exQueryC2 _ (addAutoFilters exQueryC2) exRel exNote1
    (Built.addRel exRel (Built.startNode exNote1 Built.init)) rfl
    (by decide) (Or.inl rfl) (by decide)

/-! Claim C6: entity equality and what deduplication it does and does
not produce. -/

theorem nodeE_beq_attrs (a b : NodeE) :
    (a == b) =
      (a.name == b.name && a.nodeType == b.nodeType && a.id == b.id) := by
  cases a
  cases b
  rw [Bool.eq_iff_iff]
  simp [and_assoc]

theorem relE_beq_attrs (a b : RelE) :
    (a == b) =
      (a.name == b.name && a.relationType == b.relationType &&
        a.start == b.start && a.«end» == b.«end» && a.optional == b.optional) := by
  cases a
  cases b
  rw [Bool.eq_iff_iff]
  simp [and_assoc]

theorem propertyE_beq_attrs (a b : PropertyE) :
    (a == b) = (a.parent == b.parent && a.name == b.name) := by
  cases a
  cases b
  rw [Bool.eq_iff_iff]
  simp

/-- Counterexample to C6's deduplication half: passing the same
Relationship to `addRelationship` twice leaves two copies in the match
list and the assembled pattern renders the match clause twice, not
once. -/
theorem double_add_two_match_clauses :
    doubleAddQuery.«match» = [exRel, exRel]
    ∧ doubleAddQuery.«match».count exRel = 2
    ∧ assemblePattern doubleAddQuery =
      .ok ("start Note1=node:node_auto_index(\"type:Note\")\nmatch\n(Note1)-[R1:NoteSimultaneousWithNote]->(Note2),\n(Note1)-[R1:NoteSimultaneousWithNote]->(Note2)\nwhere\nNote1.type = \"Note\"\nand Note2.type = \"Note\"\nreturn *\n",
        addAutoFilters doubleAddQuery) :=
  ⟨rfl, rfl, rfl⟩

/-- Claim C6 (amended): two Entities compare equal under `Entity.__eq__`
exactly when they are of the same concrete kind and their attribute
dictionaries agree attribute by attribute; however `addRelationship`
appends unconditionally, so the same relationship added twice yields two
match entries (hence two match clauses), while structural deduplication
does apply to filters added through `addComparisonFilter`. -/
theorem entity_structural_equality :
    (∀ e1 e2 : EntityV,
      e1.pyEq e2 = true ↔ (e1.kind = e2.kind ∧ e1.attrsEq e2 = true))
    ∧ (∀ (q : QueryE) (r : RelE),
        (addRelationship (addRelationship q r) r).«match» = q.«match» ++ [r, r])
    ∧ (∀ (q : QueryE) (pre : Operand) (op : String) (post : Operand),
        addComparisonFilter (addComparisonFilter q pre op post) pre op post =
          addComparisonFilter q pre op post) := by
  refine ⟨?_, ?_, ?_⟩
  · intro e1 e2
    cases e1 <;> cases e2 <;>
      simp only [EntityV.pyEq, EntityV.attrsEq, EntityV.kind, FilterE.pyEq,
        nodeE_beq_attrs, relE_beq_attrs, propertyE_beq_attrs] <;>
      simp
  · intro q r
    rw [addRelationship_match, addRelationship_match, List.append_assoc]
    rfl
  · intro q pre op post
    exact addCompFilter_of_present (pyInW_addCompFilter_self q pre op post)

/-! Claim C5: entity naming and the name registry. -/

theorem genName_spec :
    ∀ (draws : List Nat) (etype : String) (used : List String) (n : String),
      genName etype used draws = some n →
      n ∉ used ∧ ∃ d, d ∈ draws ∧ n = genRender etype d := by
  intro draws
  induction draws with
  | nil => intro etype used n h; simp [genName] at h
  | cons d rest ih =>
      intro etype used n h
      simp only [genName] at h
      split at h
      · obtain ⟨hn, d0, hd0, hr⟩ := ih etype used n h
        exact ⟨hn, d0, by simp [hd0], hr⟩
      · rename_i hmem
        rw [Option.some.injEq] at h
        subst h
        exact ⟨hmem, d, by simp, rfl⟩

theorem addName_used_shape {etype : String} {supplied : Option String}
    {used : List String} {draws : List Nat} {res : Except String String}
    {used' : List String}
    (h : addName etype supplied used draws = some (res, used')) :
    used' = used ∨ ∃ n, n ∉ used ∧ used' = used ++ [n] := by
  simp only [addName] at h
  split at h
  · cases h
  · rename_i n hname
    by_cases hmem : n ∈ used
    · rw [if_pos hmem, Option.some.injEq, Prod.mk.injEq] at h
      exact Or.inl h.2.symm
    · rw [if_neg hmem, Option.some.injEq, Prod.mk.injEq] at h
      exact Or.inr ⟨n, hmem, h.2.symm⟩

/-- Claim C5: constructing an Entity with a caller-supplied name already
registered fails with the naming `ValueError` and leaves the registry
unchanged; a generated name is `<Type><4-digit draw>` (`Generic` for
`'*'`), is never already registered, and is appended; and a registry
without duplicates stays without duplicates through any `_addName`
call, so registered names stay unique. -/
theorem addName_spec :
    (∀ (etype s : String) (used : List String) (draws : List Nat),
      s ≠ "" → s ∈ used →
      addName etype (some s) used draws =
        some (.error ("The name \"" ++ s ++ "\" is already being used."), used))
    ∧ (∀ (etype : String) (used : List String) (draws : List Nat)
        (n : String) (used' : List String),
        addName etype none used draws = some (.ok n, used') →
        n ∉ used ∧ used' = used ++ [n]
          ∧ ∃ d, d ∈ draws ∧ n = genRender etype d)
    ∧ (∀ (etype : String) (supplied : Option String) (used : List String)
        (draws : List Nat) (res : Except String String) (used' : List String),
        used.Nodup → addName etype supplied used draws = some (res, used') →
        used'.Nodup) := by
  refine ⟨?_, ?_, ?_⟩
  · intro etype s used draws hs hmem
    have hfal : isFalsyName (some s) = false := by
      simp [isFalsyName, hs]
    simp [addName, hfal, hmem]
  · intro etype used draws n used' h
    simp only [addName] at h
    split at h
    · cases h
    · rename_i n0 hname
      have hg : genName etype used draws = some n0 := by
        simpa [isFalsyName] using hname
      obtain ⟨hn0, d, hd, hr⟩ := genName_spec draws etype used n0 hg
      rw [if_neg hn0, Option.some.injEq, Prod.mk.injEq] at h
      obtain ⟨hok, hu⟩ := h
      rw [Except.ok.injEq] at hok
      subst hok
      exact ⟨hn0, hu.symm, d, hd, hr⟩
  · intro etype supplied used draws res used' hnd h
    rcases addName_used_shape h with rfl | ⟨n, hn, rfl⟩
    · exact hnd
    · rw [List.nodup_append]
      exact ⟨hnd, List.nodup_singleton n,
        fun x hx => by simp; rintro rfl; exact hn hx⟩

/-- Witness for C5 at concrete inputs: a colliding supplied name errors
with the registry unchanged; a generated wildcard name is
`Generic0003`, fresh, and appended; a successful call preserves
registry uniqueness. -/
theorem addName_spec_witness :
    addName "Note" (some "A") ["A"] [] =
      some (.error "The name \"A\" is already being used.", ["A"])
    ∧ ("Generic0003" ∉ ([] : List String)
        ∧ ["Generic0003"] = ([] : List String) ++ ["Generic0003"]
        ∧ ∃ d, d ∈ [3] ∧ "Generic0003" = genRender "*" d)
    ∧ List.Nodup ["A", "B"] :=
  ⟨addName_spec.1 "Note" "A" ["A"] [] (by decide) (by decide),
   addName_spec.2.1 "*" [] [3] "Generic0003" ["Generic0003"] rfl,
   addName_spec.2.2 "Note" (some "B") ["A"] [] (.ok "B") ["A", "B"]
     (by decide) rfl⟩

/-! Claim C8: the stored-text-to-value conversion and its round trip
with the value-to-string direction. -/

/-- Claim C8: `_convertFromString` maps `'True'`/`'False'`/`'None'` to
the corresponding constants, a dot-containing string parsing as a float
to that float, any other string parsing as an integer to that integer,
and leaves every other string and every non-string value unchanged; on
the supported examples it inverts the value-to-string direction
(`'True' -> true -> 'True'`, `'None' -> None -> 'None'`,
`'3.5' -> 3.5 -> '3.5'`, `'7' -> 7 -> '7'`). -/
theorem convertFromString_spec :
    (convertFromString (.str "True") = .bool true
      ∧ convertFromString (.str "False") = .bool false
      ∧ convertFromString (.str "None") = PyVal.none)
    ∧ (∀ (s : String) (f : PyFloat), hasDot s = true →
        pyParseFloat s = some f → convertFromString (.str s) = .float f)
    ∧ (∀ s : String, hasDot s = true → pyParseFloat s = Option.none →
        convertFromString (.str s) = .str s)
    ∧ (∀ (s : String) (n : Int), hasDot s = false → s ≠ "None" →
        s ≠ "True" → s ≠ "False" → pyParseInt s = some n →
        convertFromString (.str s) = .int n)
    ∧ (∀ s : String, hasDot s = false → s ≠ "None" → s ≠ "True" →
        s ≠ "False" → pyParseInt s = Option.none →
        convertFromString (.str s) = .str s)
    ∧ (∀ v : PyVal, v.isStr = false → convertFromString v = v)
    ∧ (convertFromString (.str "3.5") = .float ⟨35, 1⟩
      ∧ pyStr (.float ⟨35, 1⟩) = "3.5"
      ∧ convertFromString (.str "7") = .int 7
      ∧ pyStr (.int 7) = "7"
      ∧ pyStr (.bool true) = "True"
      ∧ pyStr (.bool false) = "False"
      ∧ pyStr PyVal.none = "None") := by
  refine ⟨⟨by decide, by decide, by decide⟩, ?_, ?_, ?_, ?_, ?_,
    by decide, by decide, by decide, by decide, by decide, by decide,
    by decide⟩
  · intro s f hdot hparse
    have h1 : s ≠ "None" := by rintro rfl; revert hdot; decide
    have h2 : s ≠ "True" := by rintro rfl; revert hdot; decide
    have h3 : s ≠ "False" := by rintro rfl; revert hdot; decide
    simp [convertFromString, h1, h2, h3, hdot, hparse]
  · intro s hdot hparse
    have h1 : s ≠ "None" := by rintro rfl; revert hdot; decide
    have h2 : s ≠ "True" := by rintro rfl; revert hdot; decide
    have h3 : s ≠ "False" := by rintro rfl; revert hdot; decide
    simp [convertFromString, h1, h2, h3, hdot, hparse]
  · intro s n hdot h1 h2 h3 hparse
    simp [convertFromString, h1, h2, h3, hdot, hparse]
  · intro s hdot h1 h2 h3 hparse
    simp [convertFromString, h1, h2, h3, hdot, hparse]
  · intro v hv
    cases v <;> first | rfl | simp [PyVal.isStr] at hv

/-- Witness for C8 at concrete inputs: a decimal string converts to the
exact float, exponent notation (`'1.5e3'`, `'1.5e-3'`) to the
corresponding float, an integer string to the integer, and non-parsing
strings pass through. -/
theorem convertFromString_spec_witness :
    convertFromString (.str "2.5") = .float ⟨25, 1⟩
    ∧ convertFromString (.str "1.5e3") = .float ⟨1500, 0⟩
    ∧ convertFromString (.str "1.5e-3") = .float ⟨15, 4⟩
    ∧ convertFromString (.str "-12") = .int (-12)
    ∧ convertFromString (.str "abc") = .str "abc"
    ∧ convertFromString (.str "1.2.3") = .str "1.2.3" :=
  ⟨convertFromString_spec.2.1 "2.5" ⟨25, 1⟩ (by decide) (by decide),
   convertFromString_spec.2.1 "1.5e3" ⟨1500, 0⟩ (by decide) (by decide),
   convertFromString_spec.2.1 "1.5e-3" ⟨15, 4⟩ (by decide) (by decide),
   convertFromString_spec.2.2.2.1 "-12" (-12) (by decide) (by decide)
     (by decide) (by decide) (by decide),
   convertFromString_spec.2.2.2.2.1 "abc" (by decide) (by decide)
     (by decide) (by decide) (by decide),
   convertFromString_spec.2.2.1 "1.2.3" (by decide) (by decide)⟩

/-! Claim C10: the signed modulo helper. -/

theorem fdiv_abs_self_pos {v : Int} (h : 0 < v) : Int.fdiv v |v| = 1 := by
  rw [Int.fdiv_eq_ediv _ (abs_nonneg v), abs_of_pos h,
    Int.ediv_self (by omega)]

theorem fdiv_abs_self_neg {v : Int} (h : v < 0) : Int.fdiv v |v| = -1 := by
  rw [Int.fdiv_eq_ediv _ (abs_nonneg v), abs_of_neg h, Int.ediv_neg,
    Int.ediv_self (by omega)]

theorem signedModuloGo_pos :
    ∀ (fuel : Nat) (val mod : Int), 0 < mod → 0 < val → val ≤ (fuel : Int) →
      ∃ r, signedModuloGo mod 1 fuel val = some r
        ∧ 0 < r ∧ r ≤ mod ∧ r % mod = val % mod := by
  intro fuel
  induction fuel with
  | zero =>
      intro val mod hm hv hf
      exfalso
      simp at hf
      omega
  | succ f ih =>
      intro val mod hm hv hf
      simp only [signedModuloGo]
      by_cases hgt : |val| > mod
      · rw [if_pos hgt]
        have habs : |val| = val := abs_of_pos hv
        rw [habs] at hgt
        have hv' : 0 < val - mod * 1 := by omega
        have hf' : val - mod * 1 ≤ (f : Int) := by push_cast at hf ⊢; omega
        obtain ⟨r, hr, h1, h2, h3⟩ := ih (val - mod * 1) mod hm hv' hf'
        refine ⟨r, hr, h1, h2, ?_⟩
        rw [h3, mul_one, Int.sub_emod, Int.emod_self, sub_zero,
          Int.emod_emod_of_dvd _ dvd_rfl]
      · rw [if_neg hgt]
        have habs : |val| = val := abs_of_pos hv
        rw [habs] at hgt
        exact ⟨val, rfl, hv, not_lt.mp hgt, rfl⟩

theorem signedModuloGo_neg_eq :
    ∀ (fuel : Nat) (val mod : Int),
      signedModuloGo mod (-1) fuel val =
        (signedModuloGo mod 1 fuel (-val)).map (fun r => -r) := by
  intro fuel
  induction fuel with
  | zero => intro val mod; rfl
  | succ f ih =>
      intro val mod
      simp only [signedModuloGo]
      have habs : |(-val)| = |val| := abs_neg val
      by_cases hgt : |val| > mod
      · rw [if_pos hgt, if_pos (by rw [habs]; exact hgt), ih]
        have harg : -(val - mod * -1) = -val - mod * 1 := by ring
        rw [harg]
      · rw [if_neg hgt, if_neg (by rw [habs]; exact hgt)]
        simp

theorem signedModuloGo_zero_stuck :
    ∀ fuel : Nat, signedModuloGo 0 1 fuel 5 = none := by
  intro fuel
  induction fuel with
  | zero => rfl
  | succ f ih =>
      simp only [signedModuloGo]
      rw [if_pos (by decide : |(5 : Int)| > 0)]
      simpa using ih

/-- Claim C10: for positive `mod`, `_signedModulo` terminates (fuel
`|val| + 1` suffices) and returns `r` congruent to `val` modulo `mod`
with `|r| <= mod` and `r = 0` iff `val = 0`; a nonzero exact multiple
`k * mod` returns `mod` when `val` is positive and `-mod` when negative,
never `0`. For `mod <= 0` termination is not guaranteed: with `mod = 0`
and `val = 5` the loop never exits, whatever the fuel. -/
theorem signedModulo_spec :
    (∀ val mod : Int, 0 < mod →
      ∃ r, signedModulo (val.natAbs + 1) val mod = some r
        ∧ Int.ModEq mod r val
        ∧ |r| ≤ mod
        ∧ (r = 0 ↔ val = 0)
        ∧ (∀ k : Int, 0 < k → val = k * mod → r = mod)
        ∧ (∀ k : Int, k < 0 → val = k * mod → r = -mod))
    ∧ (∀ fuel : Nat, signedModulo fuel 5 0 = none) := by
  constructor
  · intro val mod hm
    rcases lt_trichotomy val 0 with hv | hv | hv
    · have hfd : Int.fdiv val |val| = -1 := fdiv_abs_self_neg hv
      unfold signedModulo
      rw [if_neg (by omega), hfd, signedModuloGo_neg_eq]
      have hv' : 0 < -val := by omega
      have hf : -val ≤ ((val.natAbs + 1 : Nat) : Int) := by omega
      obtain ⟨r, hr, h1, h2, h3⟩ :=
        signedModuloGo_pos (val.natAbs + 1) (-val) mod hm hv' hf
      refine ⟨-r, by rw [hr]; rfl, ?_, ?_, ?_, ?_, ?_⟩
      · have hmeq : Int.ModEq mod r (-val) := h3
        have := hmeq.neg
        rwa [neg_neg] at this
      · rw [abs_neg, abs_of_pos h1]
        exact h2
      · constructor <;> intro <;> omega
      · intro k hk he
        exfalso
        have := mul_pos hk hm
        omega
      · intro k hk he
        have hz : r % mod = 0 := by
          have hval : -val = -k * mod := by rw [he]; ring
          rw [h3, hval, Int.mul_emod_left]
        have hdvd := Int.dvd_of_emod_eq_zero hz
        have := Int.le_of_dvd h1 hdvd
        omega
    · subst hv
      refine ⟨0, by rfl, Int.ModEq.refl 0, by simpa using hm.le, by simp,
        ?_, ?_⟩
      · intro k hk he
        exfalso
        have := mul_pos hk hm
        omega
      · intro k hk he
        exfalso
        have := mul_neg_of_neg_of_pos hk hm
        omega
    · have hfd : Int.fdiv val |val| = 1 := fdiv_abs_self_pos hv
      unfold signedModulo
      rw [if_neg (by omega), hfd]
      have hf : val ≤ ((val.natAbs + 1 : Nat) : Int) := by omega
      obtain ⟨r, hr, h1, h2, h3⟩ :=
        signedModuloGo_pos (val.natAbs + 1) val mod hm hv hf
      refine ⟨r, hr, h3, ?_, ?_, ?_, ?_⟩
      · rw [abs_of_pos h1]
        exact h2
      · constructor <;> intro <;> omega
      · intro k hk he
        have hz : r % mod = 0 := by rw [h3, he, Int.mul_emod_left]
        have hdvd := Int.dvd_of_emod_eq_zero hz
        have := Int.le_of_dvd h1 hdvd
        omega
      · intro k hk he
        exfalso
        have := mul_neg_of_neg_of_pos hk hm
        omega
  · intro fuel
    unfold signedModulo
    rw [if_neg (by decide : ¬(5 : Int) = 0)]
    have h5 : Int.fdiv (5 : Int) |(5 : Int)| = 1 := by decide
    rw [h5]
    exact signedModuloGo_zero_stuck fuel

/-- Witness for C10 at a concrete input: `_signedModulo(14, 12)` returns
`2`, congruent to `14` and within bounds. -/
theorem signedModulo_spec_witness :
    ∃ r, signedModulo ((14 : Int).natAbs + 1) 14 12 = some r
      ∧ Int.ModEq 12 r 14
      ∧ |r| ≤ 12
      ∧ (r = 0 ↔ (14 : Int) = 0)
      ∧ (∀ k : Int, 0 < k → (14 : Int) = k * 12 → r = 12)
      ∧ (∀ k : Int, k < 0 → (14 : Int) = k * 12 → r = -12) :=
  signedModulo_spec.1 14 12 (by decide)

end MusicNet
